import Mathlib

/-!
Verification of the monolithic-builder orchestration layer.

Shallow embedding of the Go sources:
* `pkg/image/commands.go` — argument construction (`BuildahBuildCommand`,
  `UnshareCommand`, `BuildahPushCommand`, `SkopeoInspectCommand`,
  `SkopeoExistsCommand`) and `parseDuration`;
* the runner-based image package (`BuildAndPush`, `getImageDigest`,
  `CheckImageExists`);
* `pkg/buildcontainer/builder.go` — the build orchestrator
  (`initializeAndCheckBuild`, `Execute`);
* the git package (`checkoutRevision`);
* `pkg/imageindex/builder.go` — the index orchestrator (`shouldBuildIndex`
  and the branch structure of its `Execute`).

External collaborators (the process runner, registry, clock, shell) are
modelled as explicit inputs: stateful Go code becomes pure functions from the
configuration plus an explicit world/outcome value to results and invocation
traces.  Machine integers are carried as `Nat`/`Int` with the same overflow
guards the Go library performs.
-/

/-- int64 wrap-around: Go multiplies `time.Duration` (an int64) without
overflow checks in the `d`/`w` branches of `parseDuration`, so the embedding
reduces products into the int64 range the way two's-complement hardware does. -/
def i64wrap (n : Int) : Int :=
  (n + 2 ^ 63) % 2 ^ 64 - 2 ^ 63

/-- A decimal digit character. -/
def isDigitChar (c : Char) : Bool :=
  48 ≤ c.toNat && c.toNat ≤ 57

/-- Go `time.leadingInt`: consume leading decimal digits of `s` into an
accumulator, with uint64 overflow guards (`x > 1<<63/10` before the multiply,
`x > 1<<63` after); `none` on overflow. -/
def leadingInt : Nat → List Char → Option (Nat × List Char)
  | x, [] => some (x, [])
  | x, c :: rest =>
    if isDigitChar c then
      if x > 2 ^ 63 / 10 then none
      else
        let x' := x * 10 + (c.toNat - 48)
        if x' > 2 ^ 63 then none else leadingInt x' rest
    else some (x, c :: rest)

/-- Go `time.leadingFraction`: consume digits after the decimal point into
`(x, scale)`; once the accumulator would overflow, further digits are consumed
but ignored.  Go keeps `scale` as a float64 power of ten; here it is the same
power of ten as a `Nat`. -/
def leadingFraction : Nat → Nat → Bool → List Char → Nat × Nat × List Char
  | x, scale, _, [] => (x, scale, [])
  | x, scale, overflow, c :: rest =>
    if isDigitChar c then
      if overflow then leadingFraction x scale overflow rest
      else if x > (2 ^ 63 - 1) / 10 then leadingFraction x scale true rest
      else
        let y := x * 10 + (c.toNat - 48)
        if y > 2 ^ 63 then leadingFraction x scale true rest
        else leadingFraction y (scale * 10) false rest
    else (x, scale, c :: rest)

/-- Go `time.unitMap`: nanoseconds per unit suffix. -/
def unitMap : List Char → Option Nat
  | ['n', 's'] => some 1
  | ['u', 's'] => some 1000
  | ['µ', 's'] => some 1000
  | ['μ', 's'] => some 1000
  | ['m', 's'] => some 1000000
  | ['s'] => some 1000000000
  | ['m'] => some 60000000000
  | ['h'] => some 3600000000000
  | _ => none

/-- One character of a unit suffix: anything but a digit or a period. -/
def isUnitChar (c : Char) : Bool :=
  !(c = '.' || isDigitChar c)

/-- The body of Go `time.ParseDuration`'s loop: one `number unit` component per
iteration, accumulated into `d` (nanoseconds); `fuel` bounds the iteration
count (each iteration consumes at least one character, so the input length
suffices).  Fraction digits contribute `f * unit / scale` — Go computes this
with float64 and so can differ by one nanosecond on fractional inputs; on
inputs without a fractional part (all inputs the claims exercise) the two
agree exactly. -/
def parseDurationLoop : Nat → List Char → Nat → Option Nat
  | 0, _, _ => none
  | _ + 1, [], _ => none
  | fuel + 1, s, d =>
    match s with
    | [] => none
    | c0 :: _ =>
      if !(c0 = '.' || isDigitChar c0) then none
      else
        match leadingInt 0 s with
        | none => none
        | some (v, s1) =>
          let pre := s1.length != s.length
          let (f, scale, s3, post) :=
            match s1 with
            | '.' :: s2 =>
              let (f, scale, s3) := leadingFraction 0 1 false s2
              (f, scale, s3, s3.length != s2.length)
            | _ => (0, 1, s1, false)
          if !pre && !post then none
          else
            let i := (s3.takeWhile isUnitChar).length
            if i = 0 then none
            else
              match unitMap (s3.take i) with
              | none => none
              | some unit =>
                if v > 2 ^ 63 / unit then none
                else
                  let v := v * unit
                  let v := if f > 0 then v + f * unit / scale else v
                  if v > 2 ^ 63 then none
                  else
                    let d := d + v
                    if d > 2 ^ 63 then none
                    else
                      match s3.drop i with
                      | [] => some d
                      | rest => parseDurationLoop fuel rest d

/-- Go `time.ParseDuration`: sign, the special case `"0"`, then the
number-unit loop; the result is nanoseconds as an `Int` (`none` = Go error). -/
def goParseDuration (s : String) : Option Int :=
  let cs := s.data
  let (neg, cs) :=
    match cs with
    | '-' :: r => (true, r)
    | '+' :: r => (false, r)
    | _ => (false, cs)
  if cs = ['0'] then some 0
  else if cs = [] then none
  else
    match parseDurationLoop (cs.length + 1) cs 0 with
    | none => none
    | some d =>
      if neg then some (-(d : Int))
      else if d > 2 ^ 63 - 1 then none
      else some (d : Int)

/-- Go `len(s)` on a string: the length of its UTF-8 byte encoding. -/
def goStringLen (s : String) : Nat :=
  s.data.foldl (fun n c => n + c.utf8Size) 0

/-- Go `strings.HasSuffix`, on the character lists of the strings (the byte
and character readings agree on suffixes used here, which are single ASCII
characters). -/
def stringHasSuffix (s suffix : String) : Bool :=
  suffix.data.isSuffixOf s.data

/-- Go `duration[:len(duration)-1]` / `strings.TrimSuffix` for a one-character
suffix: the string without its last character. -/
def stringDropLast (s : String) : String :=
  String.mk s.data.dropLast

/-- `parseDuration` from `pkg/image/commands.go`: empty string is zero; an
`h` suffix is handed to `time.ParseDuration` whole; `d` and `w` suffixes are
rewritten to hours and scaled by 24 resp. 24×7 (int64 products); otherwise
the string is handed to `time.ParseDuration` as a fallback; every parse
failure falls through and the final fallback failure yields zero.  Total by
construction — the Go function has no error return. -/
def parseDuration (duration : String) : Int :=
  if duration = "" then 0
  else
    let tryH : Option Int :=
      if stringHasSuffix duration "h" then goParseDuration duration else none
    let tryD : Option Int :=
      if stringHasSuffix duration "d" && decide (1 < goStringLen duration) then
        (goParseDuration (stringDropLast duration ++ "h")).map fun d =>
          i64wrap (d * 24)
      else none
    let tryW : Option Int :=
      if stringHasSuffix duration "w" && decide (1 < goStringLen duration) then
        (goParseDuration (stringDropLast duration ++ "h")).map fun w =>
          i64wrap (i64wrap (w * 24) * 7)
      else none
    (((tryH.orElse fun _ => tryD).orElse fun _ => tryW).orElse fun _ =>
      goParseDuration duration).getD 0

/-- A decimal rendering of `n` left-padded with zeros to width `w`
(Go's fixed-width date/time fields). -/
def zeroPad (w : Nat) (n : Nat) : String :=
  let s := toString n
  String.mk (List.replicate (w - s.length) '0') ++ s

/-- Civil date from a day count relative to 1970-01-01 (proleptic Gregorian):
`(year, month, day)`.  Standard era/day-of-era arithmetic. -/
def civilFromDays (z : Int) : Int × Nat × Nat :=
  let z' := z + 719468
  let era := (if 0 ≤ z' then z' else z' - 146096) / 146097
  let doe := (z' - era * 146097).toNat
  let yoe := (doe - doe / 1460 + doe / 36524 - doe / 146096) / 365
  let y := (yoe : Int) + era * 400
  let doy := doe - (365 * yoe + yoe / 4 - yoe / 100)
  let mp := (5 * doy + 2) / 153
  let d := doy - (153 * mp + 2) / 5 + 1
  let m := if mp < 10 then mp + 3 else mp - 9
  (if m ≤ 2 then y + 1 else y, m, d)

/-- Go `time.Time.Format(time.RFC3339)` for a wall clock at `ns` nanoseconds
since the Unix epoch: second precision, `YYYY-MM-DDTHH:MM:SS` and the zone
suffix.  The ambient clock is modelled as UTC, so the suffix is `Z`. -/
def timeFormatRFC3339 (ns : Int) : String :=
  let secs := Int.fdiv ns 1000000000
  let days := Int.fdiv secs 86400
  let sod := (secs - days * 86400).toNat
  let (y, m, d) := civilFromDays days
  zeroPad 4 y.toNat ++ "-" ++ zeroPad 2 m ++ "-" ++ zeroPad 2 d ++ "T" ++
    zeroPad 2 (sod / 3600) ++ ":" ++ zeroPad 2 (sod / 60 % 60) ++ ":" ++
    zeroPad 2 (sod % 60) ++ "Z"

example : parseDuration "24h" = 24 * 3600 * 1000000000 := by decide
example : parseDuration "2d" = 48 * 3600 * 1000000000 := by decide
example : parseDuration "1w" = 168 * 3600 * 1000000000 := by decide
example : parseDuration "" = 0 := by decide
example : parseDuration "bogus" = 0 := by decide
example : parseDuration "90m" = 90 * 60 * 1000000000 := by decide
example : goParseDuration "1h30m" = some 5400000000000 := by decide

example : timeFormatRFC3339 0 = "1970-01-01T00:00:00Z" := by decide
example : timeFormatRFC3339 (86400 * 1000000000 + 1000000000) = "1970-01-02T00:00:01Z" := by decide

namespace image

/-- `BuildConfig` from the image package: configuration for one container
image build.  Field defaults are Go zero values, used only to write concrete
test configurations compactly. -/
structure BuildConfig where
  ImageURL : String := ""
  Dockerfile : String := ""
  Context : String := ""
  Hermetic : Bool := false
  PrefetchInput : String := ""
  PrefetchPath : String := ""
  ImageExpiresAfter : String := ""
  CommitSHA : String := ""
  BuildArgs : List String := []
  BuildArgsFile : String := ""
  TLSVerify : Bool := true
deriving Repr, DecidableEq

/-- `BuildResult` from the image package. -/
structure BuildResult where
  ImageURL : String
  ImageDigest : String
deriving Repr, DecidableEq

/-- `BuildahBuildCommand` from `pkg/image/commands.go`.  The Go function reads
the ambient clock (`time.Now()`) when it renders the expiration label; the
embedding takes that clock reading as the explicit argument `now`
(nanoseconds since the Unix epoch, UTC). -/
def BuildahBuildCommand (config : BuildConfig) (now : Int) : List String :=
  let args := ["build"]
  let args := args ++ ["--file", config.Dockerfile]
  let args := args ++ ["--tag", config.ImageURL]
  let args := if !config.TLSVerify then args ++ ["--tls-verify=false"] else args
  let args := config.BuildArgs.foldl
    (fun acc arg => if arg ≠ "" then acc ++ ["--build-arg", arg] else acc) args
  let args :=
    if config.BuildArgsFile ≠ "" then args ++ ["--build-arg-file", config.BuildArgsFile]
    else args
  let args :=
    if config.Hermetic && config.PrefetchInput ≠ "" then
      let args :=
        if config.PrefetchPath ≠ "" then
          args ++ ["--volume", config.PrefetchPath ++ ":/tmp/cachi2:Z"]
        else args
      args ++ ["--network=none"]
    else args
  let args :=
    if config.CommitSHA ≠ "" then
      args ++ ["--label", "io.konflux.commit=" ++ config.CommitSHA]
    else args
  let args :=
    if config.ImageExpiresAfter ≠ "" then
      args ++ ["--label", "quay.expires-after=" ++
        timeFormatRFC3339 (now + parseDuration config.ImageExpiresAfter)]
    else args
  args ++ ["."]

/-- To hexadecimal digit (lowercase). -/
def hexChar (n : Nat) : Char :=
  if n < 10 then Char.ofNat (48 + n) else Char.ofNat (87 + n)

/-- Go `fmt.Sprintf("%q", arg)` (i.e. `strconv.Quote`) on one character:
backslash-escape `"` and `\`, keep printable ASCII, use the letter escapes
for the control characters that have one, and hex/unicode escapes otherwise.
(Go additionally keeps non-ASCII runes that its Unicode tables class as
printable literal; this embedding escapes every non-ASCII rune.  The claims
exercise only ASCII arguments, where the two renderings coincide.) -/
def goQuoteChar (c : Char) : List Char :=
  if c = '"' then ['\\', '"']
  else if c = '\\' then ['\\', '\\']
  else if 0x20 ≤ c.toNat && c.toNat ≤ 0x7E then [c]
  else if c = Char.ofNat 7 then ['\\', 'a']
  else if c = Char.ofNat 8 then ['\\', 'b']
  else if c = Char.ofNat 12 then ['\\', 'f']
  else if c = '\n' then ['\\', 'n']
  else if c = '\r' then ['\\', 'r']
  else if c = '\t' then ['\\', 't']
  else if c = Char.ofNat 11 then ['\\', 'v']
  else if c.toNat < 0x80 then
    ['\\', 'x', hexChar (c.toNat / 16), hexChar (c.toNat % 16)]
  else if c.toNat < 0x10000 then
    ['\\', 'u', hexChar (c.toNat / 4096 % 16), hexChar (c.toNat / 256 % 16),
     hexChar (c.toNat / 16 % 16), hexChar (c.toNat % 16)]
  else
    ['\\', 'U'] ++ (List.range 8).reverse.map fun i => hexChar (c.toNat / 16 ^ i % 16)

/-- Go `fmt.Sprintf("%q", s)`: the double-quoted rendering of `s`. -/
def goQuote (s : String) : String :=
  String.mk ('"' :: s.data.foldr (fun c acc => goQuoteChar c ++ acc) ['"'])

/-- Go `strings.Join(l, sep)` written directly on character lists (the shape
`String.intercalate` produces), convenient for reasoning. -/
def joinChars (sep : List Char) : List (List Char) → List Char
  | [] => []
  | [a] => a
  | a :: b :: t => a ++ sep ++ joinChars sep (b :: t)

/-- Go `strings.Join` on strings. -/
def stringsJoin (sep : String) (l : List String) : String :=
  String.mk (joinChars sep.data (l.map String.data))

/-- `UnshareCommand` from `pkg/image/commands.go`: wraps a buildah invocation
in `unshare` for rootless execution; the inner invocation is one
shell-interpreted string in which each argument is `%q`-quoted. -/
def UnshareCommand (buildahArgs : List String) (context : String) : List String :=
  let buildahCmdArray := "buildah" :: buildahArgs
  let quotedArgs := buildahCmdArray.map goQuote
  let buildahCmd := stringsJoin " " quotedArgs
  ["unshare", "-Uf", "--keep-caps", "-r",
   "--map-users", "1,1,65536",
   "--map-groups", "1,1,65536",
   "-w", context,
   "--mount", "--", "sh", "-c", buildahCmd]

/-- `BuildahPushCommand` from `pkg/image/commands.go`. -/
def BuildahPushCommand (config : BuildConfig) : List String :=
  let args := ["push"]
  let args := if !config.TLSVerify then args ++ ["--tls-verify=false"] else args
  args ++ [config.ImageURL]

/-- `SkopeoInspectCommand` from `pkg/image/commands.go`. -/
def SkopeoInspectCommand (imageURL : String) (tlsVerify : Bool) : List String :=
  let args := ["inspect"]
  let args := if !tlsVerify then args ++ ["--tls-verify=false"] else args
  args ++ ["docker://" ++ imageURL]

/-- `SkopeoExistsCommand` from `pkg/image/commands.go`. -/
def SkopeoExistsCommand (imageURL : String) (tlsVerify : Bool) : List String :=
  let args := ["inspect", "--raw"]
  let args := if !tlsVerify then args ++ ["--tls-verify=false"] else args
  args ++ ["docker://" ++ imageURL]

end image

example :
    image.UnshareCommand ["build", "--tag", "test:tag", "."] "/workspace/source" =
      ["unshare", "-Uf", "--keep-caps", "-r",
       "--map-users", "1,1,65536",
       "--map-groups", "1,1,65536",
       "-w", "/workspace/source",
       "--mount", "--", "sh", "-c",
       "\"buildah\" \"build\" \"--tag\" \"test:tag\" \".\""] := by decide

namespace image

/-- The outcome the existence probe (`skopeo inspect --raw`) can have in the
world: the image is present (exit 0), absent (non-zero exit), or the query
itself failed (network/auth error — also a non-zero exit or a failure to run,
indistinguishable from absence at the process boundary). -/
inductive ProbeOutcome
  | imageExists
  | imageAbsent
  | probeFailure
deriving Repr, DecidableEq

/-- Whether `runner.Run` for the existence probe returns a nil error: only
when the image exists does `skopeo inspect --raw` exit zero. -/
def probeRunOk : ProbeOutcome → Bool
  | .imageExists => true
  | .imageAbsent => false
  | .probeFailure => false

/-- `CheckImageExists` from the image package: builds the probe arguments and
returns `(err == nil, nil)` for the probe's `runner.Run` error — the error
component of the result is the literal `nil` on every path. -/
def CheckImageExists (imageURL : String) (tlsVerify : Bool)
    (probe : ProbeOutcome) : Bool × Option String :=
  let _args := SkopeoExistsCommand imageURL tlsVerify
  (probeRunOk probe, none)

/-- What the world returns for the digest inspection
(`runner.RunWithOutput` of `skopeo inspect` followed by
`encoding/json.Unmarshal` and the `Digest` field lookup, both in
`getImageDigest`): the run can fail, the output can fail to parse as JSON,
the JSON can lack a string `Digest` field, or a digest is obtained.  The
external JSON library is modelled at exactly the granularity the code
observes. -/
inductive InspectOutcome
  | runError (e : String)
  | notJSON
  | jsonNoDigest
  | digest (d : String)
deriving Repr, DecidableEq

/-- `getImageDigest` from the image package: propagate a run failure, a JSON
parse failure and a missing `Digest` field as errors; otherwise the digest. -/
def getImageDigest : InspectOutcome → Except String String
  | .runError e => .error ("skopeo inspect failed: " ++ e)
  | .notJSON => .error "failed to parse skopeo output"
  | .jsonNoDigest => .error "digest not found in skopeo output"
  | .digest d => .ok d

/-- Whether an `Except` result is a success. -/
def exceptIsOk : Except String String → Bool
  | .ok _ => true
  | .error _ => false

/-- The replies the `CommandRunner` gives to the three invocations
`BuildAndPush` makes, in order: the unshare-wrapped build, the push, and the
digest inspection. -/
structure RunnerBehavior where
  buildErr : Option String := none
  pushErr : Option String := none
  inspect : InspectOutcome := .runError ""
deriving Repr, DecidableEq

/-- `BuildAndPush` from the image package: build (through the unshare
wrapper), push, then best-effort digest resolution.  Returns the Go result
(`error` = the fatal error, `ok` = the `BuildResult`) together with the trace
of external invocations `(name, args)` in order. -/
def BuildAndPush (config : BuildConfig) (now : Int) (w : RunnerBehavior) :
    Except String BuildResult × List (String × List String) :=
  let buildArgs := BuildahBuildCommand config now
  let unshareCmd := UnshareCommand buildArgs config.Context
  let trace := [(unshareCmd.headD "", unshareCmd.tail)]
  match w.buildErr with
  | some e => (.error ("buildah build failed: " ++ e), trace)
  | none =>
    let pushArgs := BuildahPushCommand config
    let trace := trace ++ [("buildah", pushArgs)]
    match w.pushErr with
    | some e => (.error ("buildah push failed: " ++ e), trace)
    | none =>
      let trace := trace ++ [("skopeo", SkopeoInspectCommand config.ImageURL config.TLSVerify)]
      let digest :=
        match getImageDigest w.inspect with
        | .error _ => ""
        | .ok d => d
      (.ok { ImageURL := config.ImageURL, ImageDigest := digest }, trace)

end image

namespace buildcontainer

/-- `Config` from `pkg/buildcontainer/config.go`.  Field defaults are the
documented parameter defaults (`LoadConfig` with an empty environment). -/
structure Config where
  GitURL : String := ""
  GitRevision : String := ""
  GitRefspec : String := ""
  GitDepth : Int := 1
  GitSubmodules : Bool := true
  ImageURL : String := ""
  Dockerfile : String := "./Dockerfile"
  Context : String := "."
  Rebuild : Bool := false
  SkipChecks : Bool := false
  Hermetic : Bool := false
  TLSVerify : Bool := true
  ImageExpiresAfter : String := ""
  PrefetchInput : String := ""
  DevPackageManagers : Bool := false
  Cachi2LogLevel : String := "info"
  Cachi2ConfigFileContent : String := ""
  BuildArgs : List String := []
  BuildArgsFile : String := ""
  CommitSHA : String := ""
  WorkspacePath : String := "/workspace"
  ResultsPath : String := "/tekton/results"
  GitAuthPath : String := ""
  NetrcPath : String := ""
deriving Repr, DecidableEq

/-- `initializeAndCheckBuild` from `pkg/buildcontainer/builder.go`: rebuild or
skip-checks force a build; otherwise the existence probe decides, a probe
error (logged as a warning) also meaning "build".  The Go function's error
return is `nil` on every path, so the embedding returns the boolean alone. -/
def initializeAndCheckBuild (config : Config) (probe : image.ProbeOutcome) : Bool :=
  if config.Rebuild || config.SkipChecks then true
  else
    match image.CheckImageExists config.ImageURL config.TLSVerify probe with
    | (_, some _) => true
    | (ex, none) => !ex

/-- `CloneResult` from the git package. -/
structure CloneResult where
  CommitSHA : String
  URL : String
deriving Repr, DecidableEq

/-- Go `filepath.Join` for the two-component paths the orchestrator builds
(neither component empty or needing cleaning in its uses). -/
def filepathJoin (a b : String) : String :=
  if a = "" then b else a ++ "/" ++ b

/-- `buildContainerImage`'s construction of the image `BuildConfig` from the
orchestrator's `Config` and the resolved commit. -/
def buildConfigOf (config : Config) (commitSHA : String) : image.BuildConfig :=
  { ImageURL := config.ImageURL
    Dockerfile := config.Dockerfile
    Context := filepathJoin config.WorkspacePath "source"
    Hermetic := config.Hermetic
    PrefetchInput := config.PrefetchInput
    PrefetchPath := filepathJoin config.WorkspacePath "cachi2"
    ImageExpiresAfter := config.ImageExpiresAfter
    CommitSHA := commitSHA
    BuildArgs := config.BuildArgs
    BuildArgsFile := config.BuildArgsFile
    TLSVerify := config.TLSVerify }

/-- Everything the world decides during one orchestrator run: the existence
probe, the clone result, the prefetch outcome, the runner's replies to the
build/push/inspect invocations, and the skip path's digest inspection. -/
structure OrchestratorWorld where
  probe : image.ProbeOutcome := .imageExists
  clone : Except String CloneResult := .error ""
  prefetchErr : Option String := none
  runner : image.RunnerBehavior := {}
  skipInspect : image.InspectOutcome := .runError ""
deriving Repr

/-- `Execute` from `pkg/buildcontainer/builder.go`: the build/skip state
machine.  Returns the fatal error (`some msg`) or `none` for a completed run,
together with the ordered list of result writes `(name, value)`.  Result
writes themselves (`os.WriteFile` one-liners, excluded by the spec as simple
I/O wrappers) are modelled as always succeeding; `GetImageDigest`, whose
definition is not among the repository's files, is modelled by the same
digest-inspection boundary `image.getImageDigest` its callers observe. -/
def Execute (config : Config) (now : Int) (w : OrchestratorWorld) :
    Option String × List (String × String) :=
  let shouldBuild := initializeAndCheckBuild config w.probe
  let writes := [("build", if shouldBuild then "true" else "false")]
  match w.clone with
  | .error e => (some ("git clone failed: " ++ e), writes)
  | .ok gitResult =>
    let writes := writes ++
      [("commit", gitResult.CommitSHA), ("url", gitResult.URL),
       ("IMAGE_URL", config.ImageURL)]
    if !shouldBuild then
      let digest :=
        match image.getImageDigest w.skipInspect with
        | .error _ => ""
        | .ok d => d
      (none, writes ++ [("IMAGE_DIGEST", digest)])
    else
      match (if config.PrefetchInput ≠ "" then w.prefetchErr else none) with
      | some e => (some ("dependency prefetch failed: " ++ e), writes)
      | none =>
        match (image.BuildAndPush (buildConfigOf config gitResult.CommitSHA) now w.runner).1 with
        | .error e => (some ("container build failed: " ++ e), writes)
        | .ok buildResult =>
          (none, writes ++ [("IMAGE_DIGEST", buildResult.ImageDigest)])

end buildcontainer

namespace git

/-- A hexadecimal digit's value, per Go `encoding/hex` (0-9, a-f, A-F). -/
def hexDigitVal (c : Char) : Option Nat :=
  if 48 ≤ c.toNat && c.toNat ≤ 57 then some (c.toNat - 48)
  else if 97 ≤ c.toNat && c.toNat ≤ 102 then some (c.toNat - 87)
  else if 65 ≤ c.toNat && c.toNat ≤ 70 then some (c.toNat - 55)
  else none

/-- Go `hex.DecodeString` as `plumbing.NewHash` uses it (errors ignored):
decode digit pairs until an invalid character or an odd tail, keeping the
bytes decoded so far. -/
def hexDecodePairs : List Char → List Nat
  | a :: b :: rest =>
    match hexDigitVal a, hexDigitVal b with
    | some x, some y => (x * 16 + y) :: hexDecodePairs rest
    | _, _ => []
  | _ => []

/-- `plumbing.NewHash(revision).String()`: the decoded bytes are copied into a
20-byte array (short input zero-padded, long input truncated) and re-encoded
as 40 lowercase hex characters. -/
def newHashString (s : String) : String :=
  let bytes := (hexDecodePairs s.data).take 20
  let bytes := bytes ++ List.replicate (20 - bytes.length) 0
  String.mk (bytes.foldr (fun b acc => image.hexChar (b / 16) :: image.hexChar (b % 16) :: acc) [])

/-- `plumbing.NewBranchReferenceName`. -/
def NewBranchReferenceName (r : String) : String := "refs/heads/" ++ r

/-- `plumbing.NewTagReferenceName`. -/
def NewTagReferenceName (r : String) : String := "refs/tags/" ++ r

/-- One checkout attempt `checkoutRevision` makes, labelled by the revision
string it interprets. -/
inductive Attempt
  | hash (revision : String)
  | branch (revision : String)
  | tag (revision : String)
deriving Repr, DecidableEq

/-- The cloned repository/worktree as `checkoutRevision` observes it:
whether `Checkout{Hash: h}` succeeds for a given 40-hex hash, whether
`Checkout{Branch: ref}` succeeds for a given full reference name, and what
`repo.Head()` yields (`none` = error). -/
structure Worktree where
  checkoutHash : String → Bool
  checkoutRef : String → Bool
  headHash : Option String

/-- The branch-then-tag tail of `checkoutRevision` (the code after the
commit-hash attempt), with its attempt trace. -/
def checkoutBranchTag (w : Worktree) (revision : String) :
    Except String String × List Attempt :=
  if w.checkoutRef (NewBranchReferenceName revision) then
    (match w.headHash with
     | some h => .ok h
     | none => .error "failed to get HEAD",
     [.branch revision])
  else if w.checkoutRef (NewTagReferenceName revision) then
    (match w.headHash with
     | some h => .ok h
     | none => .error "failed to get HEAD",
     [.branch revision, .tag revision])
  else
    (.error ("failed to checkout revision: " ++ revision),
     [.branch revision, .tag revision])

/-- `checkoutRevision` from the git package: when the revision's length is in
the abbreviated-to-full hash range 7–40, first try it as an exact object id;
then try it as a branch, then as a tag; the first success returns, and total
failure is an error naming the revision verbatim.  Returned with the ordered
trace of checkout attempts. -/
def checkoutRevision (w : Worktree) (revision : String) :
    Except String String × List Attempt :=
  if 7 ≤ goStringLen revision && goStringLen revision ≤ 40 then
    let hash := newHashString revision
    if w.checkoutHash hash then (.ok hash, [.hash revision])
    else
      let r := checkoutBranchTag w revision
      (r.1, .hash revision :: r.2)
  else checkoutBranchTag w revision

end git

namespace imageindex

/-- `Config` from `pkg/imageindex/config.go`, defaults as documented. -/
structure Config where
  ImageURL : String := ""
  CommitSHA : String := ""
  ImageExpiresAfter : String := ""
  AlwaysBuildIndex : Bool := false
  Images : List String := []
  ResultsPath : String := "/tekton/results"
  TLSVerify : Bool := true
deriving Repr, DecidableEq

/-- `shouldBuildIndex` from `pkg/imageindex/builder.go`: "Always build if
explicitly requested", otherwise build when there is more than one image. -/
def shouldBuildIndex (config : Config) : Bool :=
  if config.AlwaysBuildIndex then true
  else decide (config.Images.length > 1)

/-- The three top-level paths `Execute` in `pkg/imageindex/builder.go` can
take: assemble a multi-architecture index, pass the single image through, or
fail with the zero-images configuration error. -/
inductive ExecutePath
  | buildIndex
  | singleImage
  | configError
deriving Repr, DecidableEq

/-- The branch `Execute` takes: the index is built only when
`shouldBuildIndex()` holds AND more than one image was supplied; otherwise a
single image is passed through, and zero images is a configuration error. -/
def executePath (config : Config) : ExecutePath :=
  if shouldBuildIndex config && decide (config.Images.length > 1) then .buildIndex
  else if config.Images.length = 1 then .singleImage
  else .configError

/-- Go `strings.Split` for a one-character separator, on character lists. -/
def splitOn (sep : Char) : List Char → List (List Char)
  | [] => [[]]
  | c :: rest =>
    let r := splitOn sep rest
    if c = sep then [] :: r
    else (c :: r.headD []) :: r.tail

/-- Go `strings.Split(s, sep)` (one-character separator). -/
def stringsSplit (s : String) (sep : Char) : List String :=
  (splitOn sep s.data).map String.mk

/-- The single-image branch of `Execute`: split the reference at `@`; a
`reference@digest` form yields both parts directly with no external call,
anything else keeps the reference and resolves the digest via the registry,
tolerating failure with an empty digest. -/
def singleImageExtract (imageRef : String) (registryDigest : Except String String) :
    String × String :=
  let parts := stringsSplit imageRef '@'
  if parts.length = 2 then (parts.headD "", (parts.drop 1).headD "")
  else
    (imageRef,
     match registryDigest with
     | .error _ => ""
     | .ok d => d)

end imageindex

example : imageindex.stringsSplit "quay.io/repo@sha256:abc" '@' =
    ["quay.io/repo", "sha256:abc"] := by decide

namespace sh

/-- Scanner mode: outside quotes, inside double quotes, inside single quotes. -/
inductive Mode
  | unq
  | dq
  | sq
deriving Repr, DecidableEq

/-- Characters that, unquoted, are operators or expansion/globbing triggers in
POSIX sh (beyond whitespace, quotes, `$` and backquote, handled separately). -/
def shellMetaChars : List Char :=
  [';', '|', '&', '<', '>', '(', ')', '#', '*', '?', '[', ']', '~']

/-- Modelled from the spec: the inner shell's re-parsing of the single
shell-interpreted string `sh -c` receives (the shell binary is an external
collaborator; the spec requires that "re-parsing that string by the inner
shell recovers exactly the original argument list").  POSIX field splitting
with quoting: unquoted whitespace separates fields; double quotes group, and
inside them a backslash is special exactly before `$`, backquote, `"`, `\`
and newline; single quotes group literally; a backslash outside quotes
escapes the next character.  Parameter/command expansion is not modelled:
a `$` or backquote that the shell would expand, and unquoted operator or
globbing characters, make the result environment-dependent and yield `none`
(so a `some` verdict is exactly "the shell recovers these fields in every
environment"). -/
def splitLoop : List Char → Mode → List String → List Char → Bool → Option (List String)
  | [], .unq, acc, cur, inF => some (acc ++ if inF then [String.mk cur] else [])
  | [], _, _, _, _ => none
  | c :: rest, .unq, acc, cur, inF =>
    if c = ' ' || c = '\t' || c = '\n' then
      if inF then splitLoop rest .unq (acc ++ [String.mk cur]) [] false
      else splitLoop rest .unq acc [] false
    else if c = '"' then splitLoop rest .dq acc cur true
    else if c = '\'' then splitLoop rest .sq acc cur true
    else if c = '$' || c = '`' || shellMetaChars.contains c then none
    else if c = '\\' then
      match rest with
      | [] => none
      | d :: rest' =>
        if d = '\n' then splitLoop rest' .unq acc cur inF
        else splitLoop rest' .unq acc (cur ++ [d]) true
    else splitLoop rest .unq acc (cur ++ [c]) true
  | c :: rest, .dq, acc, cur, inF =>
    if c = '"' then splitLoop rest .unq acc cur inF
    else if c = '$' || c = '`' then none
    else if c = '\\' then
      match rest with
      | [] => none
      | d :: rest' =>
        if d = '$' || d = '`' || d = '"' || d = '\\' then
          splitLoop rest' .dq acc (cur ++ [d]) inF
        else if d = '\n' then splitLoop rest' .dq acc cur inF
        else splitLoop rest' .dq acc (cur ++ ['\\', d]) inF
    else splitLoop rest .dq acc (cur ++ [c]) inF
  | c :: rest, .sq, acc, cur, inF =>
    if c = '\'' then splitLoop rest .unq acc cur inF
    else splitLoop rest .sq acc (cur ++ [c]) inF

/-- The fields the inner shell recovers from a command string (see
`splitLoop`). -/
def split (s : String) : Option (List String) :=
  splitLoop s.data .unq [] [] false

end sh

example : sh.split "\"buildah\" \"build\" \"--tag\" \"test:tag\" \".\"" =
    some ["buildah", "build", "--tag", "test:tag", "."] := by decide
example : sh.split "a  \"b c\" ''" = some ["a", "b c", ""] := by decide
example : sh.split "a$b" = none := by decide

/-- Printable ASCII without `$` or backquote: the arguments whose Go quoting
the double-quote context of the shell undoes exactly. -/
def shellSafeChar (c : Char) : Bool :=
  (0x20 ≤ c.toNat && c.toNat ≤ 0x7E) && !(c = '$') && !(c = '`')

/-- What `strconv.Quote` emits for one character of the safe set: `"` and `\`
get a backslash, everything else stands alone. -/
def escChar (c : Char) : List Char :=
  if c = '"' || c = '\\' then ['\\', c] else [c]

/-- `escChar` over a character list. -/
def escList : List Char → List Char
  | [] => []
  | c :: t => escChar c ++ escList t

theorem goQuoteChar_safe (c : Char) (h : shellSafeChar c = true) :
    image.goQuoteChar c = escChar c := by
  simp only [shellSafeChar, Bool.and_eq_true, Bool.not_eq_true', decide_eq_true_eq,
    decide_eq_false_iff_not] at h
  obtain ⟨⟨⟨h1, h2⟩, h3⟩, h4⟩ := h
  by_cases hq : c = '"'
  · subst hq; rfl
  · by_cases hb : c = '\\'
    · subst hb; rfl
    · simp [image.goQuoteChar, escChar, hq, hb, h1, h2]

theorem goQuote_data_safe (s : String) (h : ∀ c ∈ s.data, shellSafeChar c = true) :
    (image.goQuote s).data = '"' :: (escList s.data ++ ['"']) := by
  have : ∀ l : List Char, (∀ c ∈ l, shellSafeChar c = true) →
      l.foldr (fun c acc => image.goQuoteChar c ++ acc) ['"'] = escList l ++ ['"'] := by
    intro l hl
    induction l with
    | nil => rfl
    | cons c t ih =>
      simp only [List.foldr_cons, escList, List.append_assoc]
      rw [goQuoteChar_safe c (hl c (by simp)), ih (fun x hx => hl x (by simp [hx]))]
  show '"' :: s.data.foldr (fun c acc => image.goQuoteChar c ++ acc) ['"']
      = '"' :: (escList s.data ++ ['"'])
  rw [this s.data h]

theorem splitLoop_escList (l : List Char) (h : ∀ c ∈ l, shellSafeChar c = true)
    (rest : List Char) (acc : List String) (cur : List Char) (inF : Bool) :
    sh.splitLoop (escList l ++ rest) .dq acc cur inF
      = sh.splitLoop rest .dq acc (cur ++ l) inF := by
  induction l generalizing cur with
  | nil => simp [escList]
  | cons c t ih =>
    have hc := h c (by simp)
    have ht : ∀ x ∈ t, shellSafeChar x = true := fun x hx => h x (by simp [hx])
    simp only [shellSafeChar, Bool.and_eq_true, Bool.not_eq_true', decide_eq_true_eq,
      decide_eq_false_iff_not] at hc
    obtain ⟨⟨⟨h1, h2⟩, h3⟩, h4⟩ := hc
    by_cases hq : c = '"'
    · subst hq
      rw [show sh.splitLoop (escList ('"' :: t) ++ rest) .dq acc cur inF
            = sh.splitLoop (escList t ++ rest) .dq acc (cur ++ ['"']) inF from rfl]
      rw [ih ht (cur ++ ['"'])]
      simp
    · by_cases hb : c = '\\'
      · subst hb
        rw [show sh.splitLoop (escList ('\\' :: t) ++ rest) .dq acc cur inF
              = sh.splitLoop (escList t ++ rest) .dq acc (cur ++ ['\\']) inF from rfl]
        rw [ih ht (cur ++ ['\\'])]
        simp
      · have hstep : sh.splitLoop (c :: (escList t ++ rest)) .dq acc cur inF
            = sh.splitLoop (escList t ++ rest) .dq acc (cur ++ [c]) inF := by
          rw [sh.splitLoop.eq_def]
          simp [hq, hb, h3, h4]
        rw [show escList (c :: t) ++ rest = escChar c ++ (escList t ++ rest) from by
          simp [escList]]
        rw [show escChar c = [c] from by simp [escChar, hq, hb]]
        rw [List.singleton_append, hstep, ih ht (cur ++ [c])]
        simp


theorem splitLoop_unq_quote (rest : List Char) (acc : List String) (cur : List Char)
    (inF : Bool) :
    sh.splitLoop ('"' :: rest) .unq acc cur inF = sh.splitLoop rest .dq acc cur true := by
  rw [sh.splitLoop.eq_def]
  simp

theorem splitLoop_dq_quote (rest : List Char) (acc : List String) (cur : List Char)
    (inF : Bool) :
    sh.splitLoop ('"' :: rest) .dq acc cur inF = sh.splitLoop rest .unq acc cur inF := by
  rw [sh.splitLoop.eq_def]
  simp

theorem splitLoop_unq_space (rest : List Char) (acc : List String) (cur : List Char) :
    sh.splitLoop (' ' :: rest) .unq acc cur true
      = sh.splitLoop rest .unq (acc ++ [String.mk cur]) [] false := by
  rw [sh.splitLoop.eq_def]
  simp

theorem splitLoop_quoted (s : String) (h : ∀ c ∈ s.data, shellSafeChar c = true)
    (rest : List Char) (acc : List String) (cur : List Char) (inF : Bool) :
    sh.splitLoop ((image.goQuote s).data ++ rest) .unq acc cur inF
      = sh.splitLoop rest .unq acc (cur ++ s.data) true := by
  rw [goQuote_data_safe s h]
  rw [show ('"' :: (escList s.data ++ ['"'])) ++ rest
        = '"' :: (escList s.data ++ ('"' :: rest)) from by simp]
  rw [splitLoop_unq_quote, splitLoop_escList s.data h ('"' :: rest) acc cur true,
    splitLoop_dq_quote]

theorem splitLoop_words (l : List String) (s : String)
    (h : ∀ a ∈ s :: l, ∀ c ∈ a.data, shellSafeChar c = true) (acc : List String) :
    sh.splitLoop (image.joinChars [' '] ((s :: l).map (fun w => (image.goQuote w).data)))
        .unq acc [] false
      = some (acc ++ s :: l) := by
  induction l generalizing s acc with
  | nil =>
    rw [show image.joinChars [' '] (([s].map (fun w => (image.goQuote w).data)))
          = (image.goQuote s).data ++ [] from by simp [image.joinChars]]
    rw [splitLoop_quoted s (h s (by simp)) [] acc [] false]
    rw [show sh.splitLoop [] .unq acc ([] ++ s.data) true
          = some (acc ++ [String.mk ([] ++ s.data)]) from by
      rw [sh.splitLoop.eq_def]
      simp]
    simp
  | cons s' t ih =>
    rw [show image.joinChars [' '] (((s :: s' :: t).map (fun w => (image.goQuote w).data)))
          = (image.goQuote s).data ++
            (' ' :: image.joinChars [' '] ((s' :: t).map (fun w => (image.goQuote w).data)))
        from by simp [image.joinChars]]
    rw [splitLoop_quoted s (h s (by simp)) _ acc [] false, List.nil_append,
      splitLoop_unq_space,
      ih s' (fun a ha => h a (List.mem_cons_of_mem s ha)) (acc ++ [String.mk s.data])]
    simp

/-- C3 (amended): `UnshareCommand` passes the inner buildah invocation as a
single shell-interpreted string (the last element of the vector) in which
every individual inner argument is independently `%q`-quoted, and re-parsing
that string by the inner shell recovers exactly the original argument list —
for arguments made of printable ASCII characters other than `$` and
backquote (spaces and the other shell metacharacters included).  For `$`,
backquote, and characters Go renders with backslash escapes the recovery
fails (see the counterexample). -/
theorem UnshareCommand_shell_roundtrip (args : List String) (context : String)
    (h : ∀ a ∈ args, ∀ c ∈ a.data, shellSafeChar c = true) :
    sh.split (((image.UnshareCommand args context).getLast?).getD "")
      = some ("buildah" :: args) := by
  have hlast : ((image.UnshareCommand args context).getLast?).getD ""
      = image.stringsJoin " " (("buildah" :: args).map image.goQuote) := by
    simp [image.UnshareCommand, List.getLast?]
  rw [hlast]
  show sh.splitLoop
      (image.joinChars [' '] ((("buildah" :: args).map image.goQuote).map String.data))
      .unq [] [] false = _
  rw [List.map_map]
  rw [show (("buildah" :: args).map (String.data ∘ image.goQuote))
        = (("buildah" :: args).map (fun w => (image.goQuote w).data)) from by
    simp [Function.comp]]
  have hall : ∀ a ∈ "buildah" :: args, ∀ c ∈ a.data, shellSafeChar c = true := by
    intro a ha
    rcases List.mem_cons.mp ha with rfl | ha'
    · decide
    · exact h a ha'
  exact splitLoop_words args "buildah" hall []

/-- C3 witness: a build-argument value with spaces survives the quoting and
re-parsing round trip. -/
theorem UnshareCommand_shell_roundtrip_witness :
    sh.split (((image.UnshareCommand ["build", "--build-arg", "KEY=value with spaces", "."]
        "/workspace/source").getLast?).getD "")
      = some ["buildah", "build", "--build-arg", "KEY=value with spaces", "."] :=
  UnshareCommand_shell_roundtrip ["build", "--build-arg", "KEY=value with spaces", "."]
    "/workspace/source" (by decide)

/-- C3 counterexample: an argument containing a tab character (a shell
metacharacter) does not survive.  Go `%q` renders the tab as the two
characters `\t`, and inside the shell's double quotes a backslash before `t`
is literal, so the inner shell recovers `A=x\ty` (backslash, letter t) where
the original argument had a real tab: the recovered list differs from the
original one. -/
theorem UnshareCommand_shell_roundtrip_cex :
    sh.split (((image.UnshareCommand ["build", "--build-arg", "A=x\ty"]
        "/workspace/source").getLast?).getD "")
      = some ["buildah", "build", "--build-arg", "A=x\\ty"]
    ∧ ("A=x\\ty" : String) ≠ "A=x\ty" := by
  constructor
  · decide
  · decide

/-- A `BuildConfig` with a non-empty expiration duration, used to exhibit the
clock dependence of the argument builder. -/
def expiringConfig : image.BuildConfig :=
  { ImageURL := "quay.io/test/image:tag"
    Dockerfile := "./Dockerfile"
    ImageExpiresAfter := "24h" }

/-- C2 counterexample: with a non-empty expiration duration the argument
vector embeds the construction-time timestamp, so two calls with identical
`BuildConfig` at different clock instants (here the epoch and one second
later) yield different vectors. -/
theorem BuildahBuildCommand_clock_dependent :
    image.BuildahBuildCommand expiringConfig 0 =
      ["build", "--file", "./Dockerfile", "--tag", "quay.io/test/image:tag",
       "--label", "quay.expires-after=1970-01-02T00:00:00Z", "."]
    ∧ image.BuildahBuildCommand expiringConfig 1000000000 =
      ["build", "--file", "./Dockerfile", "--tag", "quay.io/test/image:tag",
       "--label", "quay.expires-after=1970-01-02T00:00:01Z", "."]
    ∧ image.BuildahBuildCommand expiringConfig 0
        ≠ image.BuildahBuildCommand expiringConfig 1000000000 := by
  refine ⟨by decide, by decide, by decide⟩

/-- C2 (amended): the argument builder is a pure function of the
`BuildConfig` and the construction-time clock; whenever the expiration
duration string is empty the clock is unused, so identical input yields
byte-identical argument vectors across calls, times and processes.  With a
non-empty expiration duration the vector depends on the clock reading (see
the counterexample). -/
theorem BuildahBuildCommand_deterministic (config : image.BuildConfig)
    (t1 t2 : Int) (h : config.ImageExpiresAfter = "") :
    image.BuildahBuildCommand config t1 = image.BuildahBuildCommand config t2 := by
  simp [image.BuildahBuildCommand, h]

/-- C2 witness: a concrete expiration-free configuration gives the same
vector at two different clock instants. -/
theorem BuildahBuildCommand_deterministic_witness :
    image.BuildahBuildCommand { ImageURL := "quay.io/r:t" } 0
      = image.BuildahBuildCommand { ImageURL := "quay.io/r:t" } 12345 :=
  BuildahBuildCommand_deterministic { ImageURL := "quay.io/r:t" } 0 12345 rfl

theorem buildArgs_foldl (x : String) (l : List String) (init : List String) :
    l.foldl (fun acc arg => if arg = "" then acc else acc ++ [x, arg]) init
      = init ++ l.flatMap (fun a => if a = "" then [] else [x, a]) := by
  induction l generalizing init with
  | nil => simp
  | cons a t ih =>
    by_cases ha : a = ""
    · simp [ha, ih]
    · simp [ha, ih, List.append_assoc]

/-- C4: the build-tool argument vector in its exact fixed order — subcommand;
dockerfile flag+value; destination-tag flag+value; TLS-disable flag only if
verification is disabled; one build-argument pair per non-empty entry in
input order; build-argument-file flag only if supplied; hermetic flags
(dependency volume mount, then network isolation) only if hermetic mode is
enabled and a prefetch input was supplied; commit label only if a commit id
is known; expiration label only if a duration was supplied; and the build
context path — `"."`, the context relative to the working directory the
rootless wrapper sets to the configured context — always last. -/
theorem BuildahBuildCommand_order (config : image.BuildConfig) (now : Int) :
    image.BuildahBuildCommand config now =
      ["build", "--file", config.Dockerfile, "--tag", config.ImageURL]
      ++ (if config.TLSVerify then [] else ["--tls-verify=false"])
      ++ config.BuildArgs.flatMap (fun a => if a = "" then [] else ["--build-arg", a])
      ++ (if config.BuildArgsFile = "" then [] else ["--build-arg-file", config.BuildArgsFile])
      ++ (if config.Hermetic = true ∧ config.PrefetchInput ≠ "" then
            (if config.PrefetchPath = "" then []
             else ["--volume", config.PrefetchPath ++ ":/tmp/cachi2:Z"])
            ++ ["--network=none"]
          else [])
      ++ (if config.CommitSHA = "" then [] else
            ["--label", "io.konflux.commit=" ++ config.CommitSHA])
      ++ (if config.ImageExpiresAfter = "" then [] else
            ["--label", "quay.expires-after=" ++
              timeFormatRFC3339 (now + parseDuration config.ImageExpiresAfter)])
      ++ ["."]
    ∧ (image.BuildahBuildCommand config now).getLast? = some "." := by
  have h1 : image.BuildahBuildCommand config now =
      ["build", "--file", config.Dockerfile, "--tag", config.ImageURL]
      ++ (if config.TLSVerify then [] else ["--tls-verify=false"])
      ++ config.BuildArgs.flatMap (fun a => if a = "" then [] else ["--build-arg", a])
      ++ (if config.BuildArgsFile = "" then [] else ["--build-arg-file", config.BuildArgsFile])
      ++ (if config.Hermetic = true ∧ config.PrefetchInput ≠ "" then
            (if config.PrefetchPath = "" then []
             else ["--volume", config.PrefetchPath ++ ":/tmp/cachi2:Z"])
            ++ ["--network=none"]
          else [])
      ++ (if config.CommitSHA = "" then [] else
            ["--label", "io.konflux.commit=" ++ config.CommitSHA])
      ++ (if config.ImageExpiresAfter = "" then [] else
            ["--label", "quay.expires-after=" ++
              timeFormatRFC3339 (now + parseDuration config.ImageExpiresAfter)])
      ++ ["."] := by
    cases hTLS : config.TLSVerify <;>
    cases hH : config.Hermetic <;>
    by_cases hBF : config.BuildArgsFile = "" <;>
    by_cases hPI : config.PrefetchInput = "" <;>
    by_cases hPP : config.PrefetchPath = "" <;>
    by_cases hC : config.CommitSHA = "" <;>
    by_cases hE : config.ImageExpiresAfter = "" <;>
    simp [image.BuildahBuildCommand, buildArgs_foldl, hTLS, hH, hBF, hPI, hPP, hC, hE,
      List.append_assoc]
  refine ⟨h1, ?_⟩
  rw [h1]
  exact List.getLast?_concat _

/-- C8: the duration parser is total (it returns a duration for every string,
by construction — the Go function has no error return) and maps `"24h"` to 24
hours, `"2d"` to 48 hours, `"1w"` to 168 hours, and the empty string to a
zero-length duration; moreover every string the underlying duration grammar
rejects both as given and with its last character rewritten to hours (i.e.
every unparseable string, `"bogus"` included) maps to a zero-length
duration. -/
theorem parseDuration_total_spec :
    parseDuration "24h" = 24 * 3600 * 1000000000
    ∧ parseDuration "2d" = 48 * 3600 * 1000000000
    ∧ parseDuration "1w" = 168 * 3600 * 1000000000
    ∧ parseDuration "" = 0
    ∧ parseDuration "bogus" = 0
    ∧ ∀ s : String, goParseDuration s = none →
        goParseDuration (stringDropLast s ++ "h") = none → parseDuration s = 0 := by
  refine ⟨by decide, by decide, by decide, by decide, by decide, ?_⟩
  intro s h1 h2
  by_cases hs : s = ""
  · simp [parseDuration, hs]
  · simp [parseDuration, hs, h1, h2, Option.orElse]

/-- C5: the build decision — force-rebuild or skip-checks always take the
build path; otherwise the existence probe decides, the build path taken
exactly when the probe does not report the image present, a failing probe
(fail-open) included. -/
theorem initializeAndCheckBuild_decision (config : buildcontainer.Config)
    (probe : image.ProbeOutcome) :
    ((config.Rebuild = true ∨ config.SkipChecks = true) →
        buildcontainer.initializeAndCheckBuild config probe = true)
    ∧ (config.Rebuild = false → config.SkipChecks = false →
        ((buildcontainer.initializeAndCheckBuild config probe = true
            ↔ probe ≠ image.ProbeOutcome.imageExists)
          ∧ (probe = image.ProbeOutcome.probeFailure →
              buildcontainer.initializeAndCheckBuild config probe = true))) := by
  constructor
  · rintro (h | h) <;> simp [buildcontainer.initializeAndCheckBuild, h]
  · intro h1 h2
    cases probe <;>
      simp [buildcontainer.initializeAndCheckBuild, image.CheckImageExists,
        image.probeRunOk, h1, h2]

/-- C10: `CheckImageExists` returns a nil error for every image reference,
TLS flag and probe outcome; a failing probe yields `(false, nil)` — the very
same result as an absent image — so the orchestrator's warn-and-default
branch for a failed existence check can never run, and probe failure is
indistinguishable from image absence at this interface. -/
theorem CheckImageExists_nil_error (imageURL : String) (tlsVerify : Bool)
    (probe : image.ProbeOutcome) :
    (image.CheckImageExists imageURL tlsVerify probe).2 = none
    ∧ (image.CheckImageExists imageURL tlsVerify image.ProbeOutcome.probeFailure).1 = false
    ∧ image.CheckImageExists imageURL tlsVerify image.ProbeOutcome.probeFailure
        = image.CheckImageExists imageURL tlsVerify image.ProbeOutcome.imageAbsent :=
  ⟨rfl, rfl, rfl⟩

/-- C1: with the always-assemble flag set and exactly one per-architecture
reference, `shouldBuildIndex()` answers `true` ("Always build if explicitly
requested"), yet `Execute` — which additionally requires more than one
image — takes the single-image pass-through path: the reference is split at
`@` into image and digest whatever the registry would answer, and no
manifest list is assembled. -/
theorem imageindex_flag_with_single_image :
    imageindex.shouldBuildIndex
        { AlwaysBuildIndex := true, Images := ["quay.io/repo@sha256:abc"] } = true
    ∧ imageindex.executePath
        { AlwaysBuildIndex := true, Images := ["quay.io/repo@sha256:abc"] }
        = imageindex.ExecutePath.singleImage
    ∧ ∀ registryDigest,
        imageindex.singleImageExtract "quay.io/repo@sha256:abc" registryDigest
          = ("quay.io/repo", "sha256:abc") := by
  refine ⟨by decide, by decide, fun registryDigest => rfl⟩

/-- C6: in `BuildAndPush`, a push failure aborts the run with the push error
and the invocation trace holds exactly the build and push invocations — no
digest resolution is attempted; a digest-resolution failure after a
successful push leaves the run successful with an empty digest. -/
theorem BuildAndPush_failure_policy (config : image.BuildConfig) (now : Int)
    (w : image.RunnerBehavior) (e : String) :
    (w.buildErr = none → w.pushErr = some e →
        (image.BuildAndPush config now w).1
            = Except.error ("buildah push failed: " ++ e)
        ∧ ((image.BuildAndPush config now w).2.map Prod.fst) = ["unshare", "buildah"])
    ∧ (w.buildErr = none → w.pushErr = none →
        image.exceptIsOk (image.getImageDigest w.inspect) = false →
        (image.BuildAndPush config now w).1
            = Except.ok { ImageURL := config.ImageURL, ImageDigest := "" }) := by
  constructor
  · intro hb hp
    constructor <;> simp [image.BuildAndPush, hb, hp, image.UnshareCommand]
  · intro hb hp hd
    cases hi : w.inspect with
    | runError e' => simp [image.BuildAndPush, hb, hp, hi, image.getImageDigest]
    | notJSON => simp [image.BuildAndPush, hb, hp, hi, image.getImageDigest]
    | jsonNoDigest => simp [image.BuildAndPush, hb, hp, hi, image.getImageDigest]
    | digest d =>
      rw [hi] at hd
      simp [image.getImageDigest, image.exceptIsOk] at hd

/-- C7: `checkoutRevision` attempts interpretations in the fixed order —
exact object id only when the revision's length is between 7 and 40
inclusive, then branch head, then tag — stops at the first success, and when
none succeed fails with an error whose message names the original revision
string verbatim.  (The code behaves this way for every revision string; the
non-empty ones are the ones its caller passes.) -/
theorem checkoutRevision_strategy (w : git.Worktree) (rev : String) :
    ((7 ≤ goStringLen rev && goStringLen rev ≤ 40) = true →
      w.checkoutHash (git.newHashString rev) = true →
      git.checkoutRevision w rev
        = (Except.ok (git.newHashString rev), [git.Attempt.hash rev]))
    ∧ (((7 ≤ goStringLen rev && goStringLen rev ≤ 40) = true →
          w.checkoutHash (git.newHashString rev) = false) →
        ((∀ h, w.headHash = some h →
          (w.checkoutRef (git.NewBranchReferenceName rev) = true →
            git.checkoutRevision w rev
              = (Except.ok h,
                 (if 7 ≤ goStringLen rev && goStringLen rev ≤ 40 then [git.Attempt.hash rev] else [])
                   ++ [git.Attempt.branch rev]))
          ∧ (w.checkoutRef (git.NewBranchReferenceName rev) = false →
             w.checkoutRef (git.NewTagReferenceName rev) = true →
            git.checkoutRevision w rev
              = (Except.ok h,
                 (if 7 ≤ goStringLen rev && goStringLen rev ≤ 40 then [git.Attempt.hash rev] else [])
                   ++ [git.Attempt.branch rev, git.Attempt.tag rev])))
        ∧ (w.checkoutRef (git.NewBranchReferenceName rev) = false →
           w.checkoutRef (git.NewTagReferenceName rev) = false →
          git.checkoutRevision w rev
            = (Except.error ("failed to checkout revision: " ++ rev),
               (if 7 ≤ goStringLen rev && goStringLen rev ≤ 40 then [git.Attempt.hash rev] else [])
                 ++ [git.Attempt.branch rev, git.Attempt.tag rev])))) := by
  constructor
  · intro hr hh
    simp [git.checkoutRevision, hr, hh]
  · intro hfail
    by_cases hr : (7 ≤ goStringLen rev && goStringLen rev ≤ 40) = true
    · have hhf := hfail hr
      refine ⟨fun h hhead => ⟨fun hbr => ?_, fun hbr htag => ?_⟩, fun hbr htag => ?_⟩
      · simp [git.checkoutRevision, git.checkoutBranchTag, hr, hhf, hhead, hbr]
      · simp [git.checkoutRevision, git.checkoutBranchTag, hr, hhf, hhead, hbr, htag]
      · simp [git.checkoutRevision, git.checkoutBranchTag, hr, hhf, hbr, htag]
    · have hr' : (7 ≤ goStringLen rev && goStringLen rev ≤ 40) = false := by
        cases hcond : (7 ≤ goStringLen rev && goStringLen rev ≤ 40)
        · rfl
        · exact absurd hcond hr
      refine ⟨fun h hhead => ⟨fun hbr => ?_, fun hbr htag => ?_⟩, fun hbr htag => ?_⟩
      · simp [git.checkoutRevision, git.checkoutBranchTag, hr', hhead, hbr]
      · simp [git.checkoutRevision, git.checkoutBranchTag, hr', hhead, hbr, htag]
      · simp [git.checkoutRevision, git.checkoutBranchTag, hr', hbr, htag]

/-- C9: a `BuildOrchestrator` run that completes without a fatal error has
written exactly the required result names in order — build-required boolean,
commit id, source URL, image reference, digest — and on the skip path (clone
succeeded, build not required) the run always completes with those same
writes, the digest write present though possibly empty. -/
theorem Execute_writes_policy (config : buildcontainer.Config) (now : Int)
    (w : buildcontainer.OrchestratorWorld) :
    ((buildcontainer.Execute config now w).1 = none →
        ((buildcontainer.Execute config now w).2.map Prod.fst)
          = ["build", "commit", "url", "IMAGE_URL", "IMAGE_DIGEST"])
    ∧ (∀ g, w.clone = Except.ok g →
        buildcontainer.initializeAndCheckBuild config w.probe = false →
        (buildcontainer.Execute config now w).1 = none
        ∧ ((buildcontainer.Execute config now w).2.map Prod.fst)
            = ["build", "commit", "url", "IMAGE_URL", "IMAGE_DIGEST"]) := by
  constructor
  · intro hdone
    cases hc : w.clone with
    | error e => simp [buildcontainer.Execute, hc] at hdone
    | ok g =>
      by_cases hsb : buildcontainer.initializeAndCheckBuild config w.probe = false
      · simp [buildcontainer.Execute, hc, hsb]
      · have hsb' : buildcontainer.initializeAndCheckBuild config w.probe = true := by
          cases h : buildcontainer.initializeAndCheckBuild config w.probe
          · exact absurd h hsb
          · rfl
        cases hpe : (if config.PrefetchInput ≠ "" then w.prefetchErr else none) with
        | some e => simp [buildcontainer.Execute, hc, hsb', hpe] at hdone
        | none =>
          cases hbp : (image.BuildAndPush (buildcontainer.buildConfigOf config g.CommitSHA)
              now w.runner).1 with
          | error e => simp [buildcontainer.Execute, hc, hsb', hpe, hbp] at hdone
          | ok br => simp [buildcontainer.Execute, hc, hsb', hpe, hbp]
  · intro g hc hsb
    constructor <;> simp [buildcontainer.Execute, hc, hsb]

/-- A worktree on which every checkout attempt fails. -/
def failingWorktree : git.Worktree :=
  { checkoutHash := fun _ => false
    checkoutRef := fun _ => false
    headHash := none }

/-- A worktree whose branch checkout succeeds with a known head. -/
def branchWorktree : git.Worktree :=
  { checkoutHash := fun _ => false
    checkoutRef := fun r => r = "refs/heads/main"
    headHash := some "0123456789abcdef0123456789abcdef01234567" }

example : git.newHashString "abc1234" =
    "abc1230000000000000000000000000000000000" := by decide

example : git.checkoutRevision failingWorktree "nosuch" =
    (Except.error "failed to checkout revision: nosuch",
     [git.Attempt.branch "nosuch", git.Attempt.tag "nosuch"]) := rfl

example : git.checkoutRevision branchWorktree "main" =
    (Except.ok "0123456789abcdef0123456789abcdef01234567", [git.Attempt.branch "main"]) := rfl

example : buildcontainer.initializeAndCheckBuild {} image.ProbeOutcome.probeFailure = true := rfl

example : buildcontainer.initializeAndCheckBuild { Rebuild := true }
    image.ProbeOutcome.imageExists = true := rfl

example : buildcontainer.initializeAndCheckBuild {} image.ProbeOutcome.imageExists = false := rfl

example :
    (image.BuildAndPush { ImageURL := "quay.io/r:t" } 0
        { buildErr := none, pushErr := some "x", inspect := .runError "" }).1
      = Except.error "buildah push failed: x" := rfl

example :
    (image.BuildAndPush { ImageURL := "quay.io/r:t" } 0
        { buildErr := none, pushErr := none, inspect := .notJSON }).1
      = Except.ok { ImageURL := "quay.io/r:t", ImageDigest := "" } := rfl

example :
    buildcontainer.Execute { ImageURL := "quay.io/r:t" } 0
        { probe := .imageExists, clone := .ok ⟨"abc123", "https://example.com/r.git"⟩,
          prefetchErr := none, runner := {}, skipInspect := .runError "down" }
      = (none,
         [("build", "false"), ("commit", "abc123"), ("url", "https://example.com/r.git"),
          ("IMAGE_URL", "quay.io/r:t"), ("IMAGE_DIGEST", "")]) := rfl
